import Mathlib

/-!
Shallow embedding of `app.py`, a BigCommerce product CSV exporter, together
with proofs about its core pipeline:

  `get_bigcommerce_config` → `fetch_products` / `fetch_brand_map` →
  `filter_products` → `build_csv_rows` (with the nested `apply_domain`).

Modelling conventions:
* Upstream JSON / Python values are the inductive `Value`
  (null / bool / int / str / list / dict).  Floats are not modelled; none of
  the verified properties involve them.
* Python dicts are association lists in insertion order; `dict.get` returns
  the first matching key.
* A Python exception inside the row builder is `Option.none`; total code
  returns `some`.
* The HTTP layer is an oracle `Nat → PageResponse` mapping the 1-based page
  number of a listing request to the response the endpoint serves for it.
  Headers, URLs and the `include` query parameter are I/O details with no
  bearing on the verified properties and are elided.
-/

/-- A Python/JSON-style value as found in BigCommerce product records. -/
inductive Value where
  | null
  | bool (b : Bool)
  | int (n : Int)
  | str (s : String)
  | list (xs : List Value)
  | dict (kvs : List (String × Value))

/-- A product record: a Python dict with string keys, in insertion order. -/
abbrev Record := List (String × Value)

/-- Python truthiness (`bool(v)`) for the modelled values. -/
def truthy : Value → Bool
  | .null => false
  | .bool b => b
  | .int n => n != 0
  | .str s => s != ""
  | .list xs => !xs.isEmpty
  | .dict kvs => !kvs.isEmpty

/-- Python `a or b`. -/
def pyOr (a b : Value) : Value := if truthy a then a else b

/-- `d.get(key)` on a string-keyed dict (association list, first match). -/
def getKey? : List (String × Value) → String → Option Value
  | [], _ => none
  | (k, v) :: rest, key => if k = key then some v else getKey? rest key

/-- `d.get(key)` on a `Dict[str, str]`. -/
def getKeyS? : List (String × String) → String → Option String
  | [], _ => none
  | (k, v) :: rest, key => if k = key then some v else getKeyS? rest key

/-- `d.get(key)` on a `Dict[int, str]` (the brand map). -/
def getBrand? : List (Int × String) → Int → Option String
  | [], _ => none
  | (k, v) :: rest, key => if k = key then some v else getBrand? rest key

/-- `pre` is a prefix of `s` (Python `s.startswith(pre)`). -/
def strStartsWith (s pre : String) : Bool := pre.data.isPrefixOf s.data

/-- Quote character chosen by Python `repr` for a string. -/
def strReprQuote (s : String) : Char :=
  if s.data.contains (Char.ofNat 39) && !s.data.contains '"' then '"' else Char.ofNat 39

/-- Escaping of one character inside a Python string `repr` (printable ASCII
plus the common escapes; exotic control characters are left as-is). -/
def escapeChar (q : Char) (c : Char) : String :=
  if c = '\\' then "\\\\"
  else if c = q then "\\" ++ String.singleton q
  else if c = '\n' then "\\n"
  else if c = '\r' then "\\r"
  else if c = '\t' then "\\t"
  else String.singleton c

/-- Python `repr` of a string. -/
def strRepr (s : String) : String :=
  let q := strReprQuote s
  String.singleton q ++ String.join (s.data.map (escapeChar q)) ++ String.singleton q

mutual
/-- Python `repr` of a value (used by `str` on lists and dicts). -/
def pyRepr : Value → String
  | .null => "None"
  | .bool true => "True"
  | .bool false => "False"
  | .int n => toString n
  | .str s => strRepr s
  | .list xs => "[" ++ String.intercalate ", " (pyReprList xs) ++ "]"
  | .dict kvs => "\x7b" ++ String.intercalate ", " (pyReprKVs kvs) ++ "\x7d"

/-- `repr` of each element of a list. -/
def pyReprList : List Value → List String
  | [] => []
  | v :: rest => pyRepr v :: pyReprList rest

/-- `repr` of each `key: value` entry of a dict. -/
def pyReprKVs : List (String × Value) → List String
  | [] => []
  | (k, v) :: rest => (strRepr k ++ ": " ++ pyRepr v) :: pyReprKVs rest
end

/-- Python `str(v)`. -/
def pyStr : Value → String
  | .null => "None"
  | .bool true => "True"
  | .bool false => "False"
  | .int n => toString n
  | .str s => s
  | .list xs => pyRepr (.list xs)
  | .dict kvs => pyRepr (.dict kvs)

/-- Python `s.lower()` (per-character ASCII lowering; the upstream
availability strings are ASCII). -/
def strLower (s : String) : String := String.mk (s.data.map Char.toLower)

/-- `FIELD_OPTIONS`: friendly labels for the exportable BigCommerce fields. -/
def FIELD_OPTIONS : List (String × String) := [
  ("id", "Product ID"),
  ("name", "Name"),
  ("sku", "SKU"),
  ("price", "Price"),
  ("sale_price", "Sale Price"),
  ("retail_price", "Retail Price"),
  ("map_price", "MAP Price"),
  ("cost_price", "Cost Price"),
  ("msrp", "MSRP"),
  ("tax_class_id", "Tax Class ID"),
  ("inventory_level", "Inventory"),
  ("type", "Type"),
  ("weight", "Weight"),
  ("width", "Width"),
  ("height", "Height"),
  ("depth", "Depth"),
  ("brand_id", "Brand ID"),
  ("brand_name", "Brand Name"),
  ("upc", "UPC"),
  ("mpn", "MPN"),
  ("gtin", "GTIN"),
  ("bin_picking_number", "Bin Picking Number"),
  ("categories", "Categories"),
  ("category_ids", "Category IDs"),
  ("primary_image_url", "Primary Image URL"),
  ("thumbnail_url", "Thumbnail URL"),
  ("image_urls", "Image URLs"),
  ("is_visible", "Is Visible"),
  ("is_featured", "Is Featured"),
  ("is_free_shipping", "Is Free Shipping"),
  ("availability", "Availability"),
  ("availability_description", "Availability Description"),
  ("condition", "Condition"),
  ("description", "Description"),
  ("warranty", "Warranty"),
  ("search_keywords", "Search Keywords"),
  ("custom_fields", "Custom Fields"),
  ("date_created", "Date Created"),
  ("date_modified", "Date Modified"),
  ("date_last_imported", "Date Last Imported"),
  ("total_sold", "Total Sold"),
  ("reviews_rating_sum", "Reviews Rating Sum"),
  ("reviews_count", "Reviews Count"),
  ("variant_skus", "Variant SKUs"),
  ("variant_prices", "Variant Prices"),
  ("variants", "Variants (JSON)"),
  ("custom_url", "Custom URL")]

/-- `FIELD_OPTIONS.get(field, field)`: header label of a requested field. -/
def labelOf (field : String) : String := (getKeyS? FIELD_OPTIONS field).getD field

/-- Doubling of the quote char inside a quoted CSV field. -/
def csvEscape (s : String) : String :=
  String.mk (s.data.foldr (fun c acc => if c = '"' then '"' :: '"' :: acc else c :: acc) [])

/-- Quoting done by `csv.writer` (QUOTE_MINIMAL, `"` quote char, `\r\n` rows). -/
def csvQuote (s : String) : String :=
  if s.data.contains ',' || s.data.contains '"' || s.data.contains '\r' || s.data.contains '\n' then
    "\"" ++ csvEscape s ++ "\""
  else s

/-- One `writer.writerow(cells)` call: the text appended to the buffer. -/
def csvRowString (cells : List String) : String :=
  String.intercalate "," (cells.map csvQuote) ++ "\r\n"

/-- `domain.rstrip("/")`: drop every trailing slash. -/
def rstripSlash (s : String) : String :=
  String.mk ((s.data.reverse.dropWhile (fun c => c = '/')).reverse)

/-- The nested helper `apply_domain(domain, url_value)` of `build_csv_rows`,
for the case where `url_value` is a string. -/
def apply_domain (domain url_value : String) : String :=
  if domain = "" then url_value
  else if url_value = "" then ""
  else if strStartsWith url_value "http://" || strStartsWith url_value "https://" then url_value
  else rstripSlash domain ++ (if strStartsWith url_value "/" then url_value else "/" ++ url_value)

/-- `apply_domain` on an arbitrary value: a non-string truthy `url_value`
reaches `.startswith` and raises (`none`). -/
def applyDomainV (domain : String) (v : Value) : Option Value :=
  if domain = "" then some v
  else
    match v with
    | .str s => some (.str (apply_domain domain s))
    | v => if truthy v then none else some (.str "")

/-- `raw_url` computed in the `custom_url` branch of `build_csv_rows`:
`custom.get("url", "") or custom.get("path", "") or ""` on a dict,
`str(custom)` otherwise. -/
def rawUrlOf (product : Record) : Value :=
  match pyOr ((getKey? product "custom_url").getD .null) (.dict []) with
  | .dict kvs =>
      pyOr (pyOr ((getKey? kvs "url").getD (.str "")) ((getKey? kvs "path").getD (.str ""))) (.str "")
  | v => .str (pyStr v)

/-- `brand_map.get(brand_id, "")` where `brand_map : Dict[int, str]` and the
key may be any value (Python `==` identifies `True`/`False` with `1`/`0`). -/
def brandLookup (brand_map : List (Int × String)) : Value → String
  | .int n => (getBrand? brand_map n).getD ""
  | .bool b => (getBrand? brand_map (if b then 1 else 0)).getD ""
  | _ => ""

/-- Python iteration over a value (`for x in v`): lists yield their elements,
strings their characters, dicts their keys; other values raise. -/
def iterOf : Value → Option (List Value)
  | .list xs => some xs
  | .str s => some (s.data.map (fun c => Value.str (String.singleton c)))
  | .dict kvs => some (kvs.map (fun kv => Value.str kv.1))
  | .null => none
  | .bool _ => none
  | .int _ => none

/-- `v.get(key, default)`: only dicts have `.get`; anything else raises. -/
def dGet : Value → String → Value → Option Value
  | .dict kvs, k, d => some ((getKey? kvs k).getD d)
  | _, _, _ => none

/-- `v` as a join operand: `str.join` raises on non-string items. -/
def strOf : Value → Option String
  | .str s => some s
  | _ => none

/-- `sep.join(vs)`. -/
def joinStrs (sep : String) (vs : List Value) : Option String :=
  (vs.mapM strOf).map (String.intercalate sep)

/-- `img is not None` filter used in the `image_urls` branch. -/
def isNotNull : Value → Bool
  | .null => false
  | _ => true

/-- The per-field `value` computed by the branches of `build_csv_rows`
(lines 243-286 of `app.py`), before the list/dict coercion. -/
def rawFieldValue (brand_map : List (Int × String)) (custom_domain : String)
    (product : Record) (field : String) : Option Value :=
  let primary_image := pyOr ((getKey? product "primary_image").getD .null) (.dict [])
  if field = "primary_image_url" then
    dGet primary_image "url_standard" (.str "")
  else if field = "thumbnail_url" then
    dGet primary_image "url_thumbnail" (.str "")
  else if field = "image_urls" then do
    let images ← iterOf (pyOr ((getKey? product "images").getD .null) (.list []))
    let urls ← (images.filter isNotNull).mapM
      (fun img => dGet (pyOr img (.dict [])) "url_standard" (.str ""))
    let s ← joinStrs ", " urls
    pure (.str s)
  else if field = "brand_name" then
    pure (.str (brandLookup brand_map ((getKey? product "brand_id").getD .null)))
  else if field = "category_ids" then do
    let cats ← iterOf (pyOr ((getKey? product "categories").getD .null) (.list []))
    pure (.str (String.intercalate ", " (cats.map pyStr)))
  else if field = "custom_fields" then do
    let cfs ← iterOf (pyOr ((getKey? product "custom_fields").getD .null) (.list []))
    let parts ← cfs.mapM (fun cf => do
      let name ← dGet cf "name" (.str "")
      let v ← dGet cf "value" (.str "")
      pure (if truthy name then Value.str (pyStr name ++ ": " ++ pyStr v) else v))
    let s ← joinStrs "; " parts
    pure (.str s)
  else if field = "variant_skus" then do
    let variants ← iterOf (pyOr ((getKey? product "variants").getD .null) (.list []))
    let skus ← (variants.filter truthy).mapM (fun v => dGet v "sku" (.str ""))
    let s ← joinStrs ", " skus
    pure (.str s)
  else if field = "variant_prices" then do
    let variants ← iterOf (pyOr ((getKey? product "variants").getD .null) (.list []))
    let prices ← (variants.filter truthy).mapM (fun v => dGet v "price" (.str ""))
    pure (.str (String.intercalate ", " (prices.map pyStr)))
  else if field = "variants" then
    pure (.str (pyStr (pyOr ((getKey? product "variants").getD .null) (.list []))))
  else if field = "custom_url" then
    applyDomainV custom_domain (rawUrlOf product)
  else
    pure ((getKey? product field).getD (.str ""))

/-- The list/dict coercion applied to `value` (lines 287-290 of `app.py`). -/
def coerceValue (field : String) (value : Value) : Value :=
  match value with
  | .list xs => .str (String.intercalate ", " (xs.map pyStr))
  | .dict kvs =>
      if field = "custom_url" then (getKey? kvs "url").getD (.str "")
      else .str (pyRepr (.dict kvs))
  | v => v

/-- The stringification `csv.writer` applies to a cell value
(`None` becomes the empty string, anything else `str(value)`). -/
def cellStr : Value → String
  | .null => ""
  | v => pyStr v

/-- One cell of the CSV body, as the string the writer will quote;
`none` models a raised exception. -/
def buildCell (brand_map : List (Int × String)) (custom_domain : String)
    (product : Record) (field : String) : Option String :=
  ((rawFieldValue brand_map custom_domain product field).map (coerceValue field)).map cellStr

/-- `build_csv_rows(products, fields, brand_map, custom_domain)`:
header row plus one row per product; `none` models a raised exception.
A `none` element of `products` is Python `None` (`product or {}`). -/
def build_csv_rows (products : List (Option Record)) (fields : List String)
    (brand_map : List (Int × String)) (custom_domain : String) : Option String := do
  let header := csvRowString (fields.map labelOf)
  let rows ← products.mapM (fun product =>
    (fields.mapM (fun field => buildCell brand_map custom_domain (product.getD []) field)).map
      csvRowString)
  pure (header ++ String.join rows)

/-- The attribute each field's extraction rule reads from the product. -/
def readsAttr (field : String) : String :=
  if field = "primary_image_url" || field = "thumbnail_url" then "primary_image"
  else if field = "image_urls" then "images"
  else if field = "brand_name" then "brand_id"
  else if field = "category_ids" then "categories"
  else if field = "custom_fields" then "custom_fields"
  else if field = "variant_skus" || field = "variant_prices" || field = "variants" then "variants"
  else if field = "custom_url" then "custom_url"
  else field

/-- The set literal `{"disabled", "unavailable", "no", "false", "0"}`. -/
def unavailable_values : List String := ["disabled", "unavailable", "no", "false", "0"]

/-- `filter_products(products, include_unavailable, include_hidden)`.
A `none` element is Python `None`; `prod or {}` turns it (and an empty dict)
into the empty dict. -/
def filter_products (products : List (Option Record))
    (include_unavailable include_hidden : Bool) : List Record :=
  match products with
  | [] => []
  | p :: rest =>
    let prod := p.getD []
    let availability := strLower (pyStr ((getKey? prod "availability").getD (.str "")))
    let is_visible := (getKey? prod "is_visible").getD (.bool true)
    if !include_unavailable && unavailable_values.contains availability then
      filter_products rest include_unavailable include_hidden
    else if !include_hidden && !truthy is_visible then
      filter_products rest include_unavailable include_hidden
    else
      prod :: filter_products rest include_unavailable include_hidden

/-- Drop condition described by the specification: the record is dropped
exactly when it is unavailable (and such records are excluded) or invisible
(and hidden records are excluded). -/
def dropPred (include_unavailable include_hidden : Bool) (prod : Record) : Bool :=
  (!include_unavailable &&
      unavailable_values.contains (strLower (pyStr ((getKey? prod "availability").getD (.str "")))))
  || (!include_hidden && !truthy ((getKey? prod "is_visible").getD (.bool true)))

/-- `dict[key] = value` on a `Dict[str, str]`: update in place, else append. -/
def dictSetS : List (String × String) → String → String → List (String × String)
  | [], key, value => [(key, value)]
  | (k, v) :: rest, key, value =>
    if k = key then (k, value) :: rest else (k, v) :: dictSetS rest key value

/-- `get_bigcommerce_config(overrides)`.  `env` models `os.getenv(name, "")`;
`overrides` is the optional override dict (its items in insertion order). -/
def get_bigcommerce_config (env : String → String)
    (overrides : List (String × String)) : List (String × String) :=
  let config := [
    ("store_hash", env "BIGCOMMERCE_STORE_HASH"),
    ("client_id", env "BIGCOMMERCE_CLIENT_ID"),
    ("access_token", env "BIGCOMMERCE_ACCESS_TOKEN")]
  overrides.foldl (fun config kv => if kv.2 ≠ "" then dictSetS config kv.1 kv.2 else config) config

/-- One HTTP response of the paginated listing endpoints: status code, raw
body text, and the `data` array of the JSON payload. -/
structure PageResponse where
  statusCode : Nat
  text : String
  data : List Record

/-- Errors raised by the fetchers (`RuntimeError` in the source, with the
structured content of the message). -/
inductive FetchError where
  | configError (missing : List String)
  | upstream (status : Nat) (body : String)
  deriving DecidableEq

/-- The pagination loop of `fetch_products` (lines 139-157 of `app.py`).
Returns the accumulated records together with the number of the last page
requested (0 when no request was made). -/
def fetchLoop (pages : Nat → PageResponse) (pageSize maxItems : Nat)
    (acc : List Record) (page : Nat) : Except (Nat × String) (List Record × Nat) :=
  if hlt : acc.length < maxItems then
    if (pages page).statusCode ≠ 200 then
      .error ((pages page).statusCode, (pages page).text)
    else if hd : (pages page).data.isEmpty then
      .ok (acc, page)
    else if (pages page).data.length < pageSize then
      .ok (acc ++ (pages page).data, page)
    else
      fetchLoop pages pageSize maxItems (acc ++ (pages page).data) (page + 1)
  else
    .ok (acc, page - 1)
termination_by maxItems - acc.length
decreasing_by
  simp only [List.length_append]
  have hpos : 0 < (pages page).data.length :=
    List.length_pos.mpr (fun hnil => hd (by simp [hnil]))
  omega

/-- `fetch_products(max_items, page_size, include_variants, config_override)`.
The `include` request parameters do not affect any verified property. -/
def fetch_products (env : String → String) (overrides : List (String × String))
    (pages : Nat → PageResponse) (maxItems pageSize : Nat) :
    Except FetchError (List Record) :=
  let config := get_bigcommerce_config env overrides
  let missing := (config.filter (fun kv => kv.2 = "")).map Prod.fst
  if missing ≠ [] then
    .error (.configError missing)
  else
    match fetchLoop pages pageSize maxItems [] 1 with
    | .error e => .error (.upstream e.1 e.2)
    | .ok (all_products, _) => .ok (all_products.take maxItems)

/-- Concatenated `data` arrays of pages `1..k`. -/
def pagesFlat (pages : Nat → PageResponse) : Nat → List Record
  | 0 => []
  | k + 1 => pagesFlat pages k ++ (pages (k + 1)).data

/-- A page triggers one of the three stopping conditions of the pagination
loop: empty page, short page, or running total at/over `maxItems`. -/
def stopCond (pages : Nat → PageResponse) (pageSize maxItems : Nat) (i : Nat) : Prop :=
  (pages i).data = [] ∨ (pages i).data.length < pageSize ∨ maxItems ≤ (pagesFlat pages i).length

mutual
/-- Structural equality of values, used for dict keys in the brand map
(`Dict[int, str]`; `None` and int keys are what occur upstream). -/
def valueBeq : Value → Value → Bool
  | .null, .null => true
  | .bool a, .bool b => a == b
  | .int a, .int b => a == b
  | .str a, .str b => a == b
  | .list xs, .list ys => valueListBeq xs ys
  | .dict xs, .dict ys => valueKVBeq xs ys
  | _, _ => false

/-- Elementwise equality of value lists. -/
def valueListBeq : List Value → List Value → Bool
  | [], [] => true
  | x :: xs, y :: ys => valueBeq x y && valueListBeq xs ys
  | _, _ => false

/-- Entrywise equality of dict entry lists. -/
def valueKVBeq : List (String × Value) → List (String × Value) → Bool
  | [], [] => true
  | (k, v) :: xs, (k2, v2) :: ys => k == k2 && valueBeq v v2 && valueKVBeq xs ys
  | _, _ => false
end

/-- `brand_map[key] = value`: update the first entry with an equal key,
else append (last write wins). -/
def dictSetV : List (Value × Value) → Value → Value → List (Value × Value)
  | [], key, value => [(key, value)]
  | (k, v) :: rest, key, value =>
    if valueBeq k key then (k, value) :: rest else (k, v) :: dictSetV rest key value

/-- The `while True` pagination loop of `fetch_brand_map` (fixed page size
250).  The loop has no bound in the source, so it is modelled with fuel:
`none` means the fuel ran out with the loop still running. -/
def brandLoop (pages : Nat → PageResponse) :
    Nat → Nat → List (Value × Value) → Option (Except (Nat × String) (List (Value × Value)))
  | 0, _, _ => none
  | fuel + 1, page, brand_map =>
    if (pages page).statusCode ≠ 200 then
      some (.error ((pages page).statusCode, (pages page).text))
    else if (pages page).data.isEmpty then
      some (.ok brand_map)
    else
      let brand_map' := (pages page).data.foldl
        (fun m brand => dictSetV m ((getKey? brand "id").getD .null)
          ((getKey? brand "name").getD (.str ""))) brand_map
      if (pages page).data.length < 250 then some (.ok brand_map')
      else brandLoop pages fuel (page + 1) brand_map'

/-- `fetch_brand_map(config_override)`, with the same fuel convention as
`brandLoop`. -/
def fetch_brand_map (env : String → String) (overrides : List (String × String))
    (pages : Nat → PageResponse) (fuel : Nat) :
    Option (Except FetchError (List (Value × Value))) :=
  let config := get_bigcommerce_config env overrides
  let missing := (config.filter (fun kv => kv.2 = "")).map Prod.fst
  if missing ≠ [] then
    some (.error (.configError missing))
  else
    (brandLoop pages fuel 1 []).map (fun r =>
      match r with
      | .error e => .error (.upstream e.1 e.2)
      | .ok bm => .ok bm)

/-- Effective configuration value for one key, as the specification words it:
a present, non-empty override replaces the default. -/
def effVal (overrides : List (String × String)) (key defaultVal : String) : String :=
  let v := (getKeyS? overrides key).getD ""
  if v ≠ "" then v else defaultVal

theorem filter_products_eq (ps : List (Option Record)) (iu ih : Bool) :
    filter_products ps iu ih
      = (ps.map (fun p => p.getD [])).filter (fun r => !dropPred iu ih r) := by
  induction ps with
  | nil => rfl
  | cons p rest ihr =>
    simp only [filter_products, dropPred, List.map_cons, List.filter_cons]
    cases h1 : (!iu && unavailable_values.contains
        (strLower (pyStr ((getKey? (p.getD []) "availability").getD (.str ""))))) <;>
      cases h2 : (!ih && !truthy ((getKey? (p.getD []) "is_visible").getD (.bool true))) <;>
        simp [ihr, dropPred]

/-- C3: `filter_products` treats a null record as an empty record without
failing, drops a record exactly when (`includeUnavailable` is false and the
lowercased string form of its availability attribute, empty if absent, is in
the literal unavailable set) or (`includeHidden` is false and its visibility
attribute, defaulting to true when absent, is false in Python's sense, i.e.
not truthy), and preserves the relative order of survivors.  `dropPred` is
that drop condition written as the specification states it; the equality
with `List.filter` over the null-coerced records is the exact
characterization, and the sublist fact witnesses order preservation. -/
theorem filter_products_drops_exactly (ps : List (Option Record)) (iu ih : Bool) :
    filter_products ps iu ih
      = (ps.map (fun p => p.getD [])).filter (fun r => !dropPred iu ih r)
    ∧ (filter_products ps iu ih).Sublist (ps.map (fun p => p.getD [])) := by
  refine ⟨filter_products_eq ps iu ih, ?_⟩
  rw [filter_products_eq]
  exact List.filter_sublist _

theorem map_some_getD (l : List Record) : (l.map some).map (fun p => p.getD []) = l := by
  induction l with
  | nil => rfl
  | cons a t ih2 => simp [ih2]

/-- C4: `filter_products` is idempotent: filtering an already-filtered
sequence again, with the same two flags, returns it unchanged. -/
theorem filter_products_idempotent (ps : List (Option Record)) (iu ih : Bool) :
    filter_products ((filter_products ps iu ih).map some) iu ih
      = filter_products ps iu ih := by
  rw [filter_products_eq, map_some_getD, filter_products_eq ps iu ih, List.filter_filter]
  simp [Bool.and_self]

/-- C10: every element of the output of `filter_products` is one of the
input records coerced through `prod or \x7b\x7d`, so a null input record that
survives appears as the empty record and the output never contains null; in
particular a single null input with both flags set survives as exactly the
empty record. -/
theorem filter_products_no_null (ps : List (Option Record)) (iu ih : Bool) :
    (∀ r : Record, r ∈ filter_products ps iu ih → ∃ p ∈ ps, r = p.getD [])
    ∧ filter_products [none] iu ih = [([] : Record)] := by
  constructor
  · intro r hr
    rw [filter_products_eq] at hr
    obtain ⟨p, hp, hpr⟩ := List.mem_map.mp (List.mem_filter.mp hr).1
    exact ⟨p, hp, hpr.symm⟩
  · cases iu <;> cases ih <;> rfl

/-- C10 witness: concrete instantiation on a single null record. -/
theorem filter_products_no_null_witness :
    ∃ p ∈ [(none : Option Record)], ([] : Record) = p.getD [] :=
  (filter_products_no_null [none] true true).1 []
    (by rw [(filter_products_no_null [none] true true).2]; exact List.mem_singleton.mpr rfl)

theorem buildCell_missing (field : String) (product : Record)
    (bm : List (Int × String)) (domain : String)
    (h : getKey? product (readsAttr field) = none) :
    buildCell bm domain product field = some (if field = "variants" then "[]" else "") := by
  by_cases h1 : field = "primary_image_url"
  · subst h1
    have h' : getKey? product "primary_image" = none := h
    simp only [buildCell,
      show rawFieldValue bm domain product "primary_image_url"
          = dGet (pyOr ((getKey? product "primary_image").getD .null) (.dict [])) "url_standard" (.str "") from rfl, h']
    rfl
  by_cases h2 : field = "thumbnail_url"
  · subst h2
    have h' : getKey? product "primary_image" = none := h
    simp only [buildCell,
      show rawFieldValue bm domain product "thumbnail_url"
          = dGet (pyOr ((getKey? product "primary_image").getD .null) (.dict [])) "url_thumbnail" (.str "") from rfl, h']
    rfl
  by_cases h3 : field = "image_urls"
  · subst h3
    have h' : getKey? product "images" = none := h
    simp only [buildCell,
      show rawFieldValue bm domain product "image_urls"
          = (iterOf (pyOr ((getKey? product "images").getD .null) (.list []))).bind
            (fun images => ((images.filter isNotNull).mapM
                (fun img => dGet (pyOr img (.dict [])) "url_standard" (.str ""))).bind
              (fun urls => (joinStrs ", " urls).bind (fun s => pure (.str s)))) from rfl, h']
    rfl
  by_cases h4 : field = "brand_name"
  · subst h4
    have h' : getKey? product "brand_id" = none := h
    simp only [buildCell,
      show rawFieldValue bm domain product "brand_name"
          = pure (.str (brandLookup bm ((getKey? product "brand_id").getD .null))) from rfl, h']
    rfl
  by_cases h5 : field = "category_ids"
  · subst h5
    have h' : getKey? product "categories" = none := h
    simp only [buildCell,
      show rawFieldValue bm domain product "category_ids"
          = (iterOf (pyOr ((getKey? product "categories").getD .null) (.list []))).bind
            (fun cats => pure (.str (String.intercalate ", " (cats.map pyStr)))) from rfl, h']
    rfl
  by_cases h6 : field = "custom_fields"
  · subst h6
    have h' : getKey? product "custom_fields" = none := h
    simp only [buildCell,
      show rawFieldValue bm domain product "custom_fields"
          = (iterOf (pyOr ((getKey? product "custom_fields").getD .null) (.list []))).bind
            (fun cfs => (cfs.mapM (fun cf => (dGet cf "name" (.str "")).bind
                (fun name => (dGet cf "value" (.str "")).bind
                  (fun v => pure (if truthy name then Value.str (pyStr name ++ ": " ++ pyStr v) else v))))).bind
              (fun parts => (joinStrs "; " parts).bind (fun s => pure (.str s)))) from rfl, h']
    rfl
  by_cases h7 : field = "variant_skus"
  · subst h7
    have h' : getKey? product "variants" = none := h
    simp only [buildCell,
      show rawFieldValue bm domain product "variant_skus"
          = (iterOf (pyOr ((getKey? product "variants").getD .null) (.list []))).bind
            (fun variants => ((variants.filter truthy).mapM (fun v => dGet v "sku" (.str ""))).bind
              (fun skus => (joinStrs ", " skus).bind (fun s => pure (.str s)))) from rfl, h']
    rfl
  by_cases h8 : field = "variant_prices"
  · subst h8
    have h' : getKey? product "variants" = none := h
    simp only [buildCell,
      show rawFieldValue bm domain product "variant_prices"
          = (iterOf (pyOr ((getKey? product "variants").getD .null) (.list []))).bind
            (fun variants => ((variants.filter truthy).mapM (fun v => dGet v "price" (.str ""))).bind
              (fun prices => pure (.str (String.intercalate ", " (prices.map pyStr))))) from rfl, h']
    rfl
  by_cases h9 : field = "variants"
  · subst h9
    have h' : getKey? product "variants" = none := h
    simp only [buildCell,
      show rawFieldValue bm domain product "variants"
          = pure (.str (pyStr (pyOr ((getKey? product "variants").getD .null) (.list [])))) from rfl, h']
    rfl
  by_cases h10 : field = "custom_url"
  · subst h10
    have h' : getKey? product "custom_url" = none := h
    have hraw : rawUrlOf product = .str "" := by unfold rawUrlOf; rw [h']; rfl
    by_cases hd : domain = ""
    · subst hd
      simp only [buildCell,
        show rawFieldValue bm "" product "custom_url"
            = applyDomainV "" (rawUrlOf product) from rfl, hraw]
      rfl
    · simp only [buildCell,
        show rawFieldValue bm domain product "custom_url"
            = applyDomainV domain (rawUrlOf product) from rfl, hraw, applyDomainV]
      rw [if_neg hd]
      simp [apply_domain, hd, coerceValue, cellStr, pyStr]
  have hr : readsAttr field = field := by
    simp [readsAttr, h1, h2, h3, h4, h5, h6, h7, h8, h9, h10]
  rw [hr] at h
  rw [if_neg h9]
  simp [buildCell, rawFieldValue, h1, h2, h3, h4, h5, h6, h7, h8, h9, h10, h,
    coerceValue, cellStr, pyStr]

/-- C2 (amended): if the product lacks the attribute a field's extraction
rule reads, the cell `build_csv_rows` produces for it is the empty string
and no exception is raised — for every field key except `variants`, whose
cell is `"[]"`, the Python stringification `str([])` of the defaulted empty
variants list.  The second conjunct shows the full `build_csv_rows` call
succeeding on such a product with exactly that cell in the data row. -/
theorem build_cell_missing_attr (field : String) (product : Record)
    (bm : List (Int × String)) (domain : String)
    (h : getKey? product (readsAttr field) = none) :
    buildCell bm domain product field = some (if field = "variants" then "[]" else "")
    ∧ build_csv_rows [some product] [field] bm domain
        = some (csvRowString [labelOf field]
            ++ csvRowString [if field = "variants" then "[]" else ""]) := by
  have hc := buildCell_missing field product bm domain h
  refine ⟨hc, ?_⟩
  simp [build_csv_rows, List.mapM.loop, hc, String.join]

/-- C2 counterexample: the claim as stated fails on the `variants` field.
On a product lacking the `variants` attribute the cell is `"[]"`, not the
empty string, and the produced CSV data row is `[]`, not empty. -/
theorem build_cell_missing_attr_cx :
    getKey? ([] : Record) (readsAttr "variants") = none
    ∧ buildCell [] "" [] "variants" = some "[]"
    ∧ buildCell [] "" [] "variants" ≠ some ""
    ∧ build_csv_rows [some []] ["variants"] [] ""
        = some "Variants (JSON)\r\n[]\r\n" := by
  refine ⟨rfl, rfl, by decide, rfl⟩

/-- C2 witness: a field without a special rule (`name`) on a product lacking
it yields the empty cell. -/
theorem build_cell_missing_attr_witness :
    buildCell [] "" [] "name" = some (if ("name" : String) = "variants" then "[]" else "")
    ∧ build_csv_rows [some []] ["name"] [] ""
        = some (csvRowString [labelOf "name"]
            ++ csvRowString [if ("name" : String) = "variants" then "[]" else ""]) :=
  build_cell_missing_attr "name" [] [] "" rfl

theorem buildCell_custom_url_str (product : Record) (bm : List (Int × String))
    (domain s : String) (hraw : rawUrlOf product = .str s) :
    buildCell bm domain product "custom_url" = some (apply_domain domain s) := by
  simp only [buildCell,
    show rawFieldValue bm domain product "custom_url"
        = applyDomainV domain (rawUrlOf product) from rfl, hraw, applyDomainV]
  by_cases hd : domain = ""
  · subst hd
    simp [apply_domain, coerceValue, cellStr, pyStr]
  · rw [if_neg hd]
    simp [coerceValue, cellStr, pyStr]

/-- C7 (amended): the `custom_url` cell extracts `url` then `path` from the
product's custom-url attribute (stringifying a non-mapping value) and is
`apply_domain` of the extraction; a value starting with `http://` or
`https://` passes through unchanged for any domain; when the domain is
non-empty and the extracted value is non-empty and relative, the cell is the
domain with trailing slashes stripped concatenated with the value given a
leading slash if missing (the non-emptiness condition is forced by the
counterexample: an empty extraction yields the empty cell, not the bare
domain).  The last two conjuncts are the concrete examples from the
specification. -/
theorem custom_url_domain_prefixing :
    (∀ domain s : String,
      (strStartsWith s "http://" || strStartsWith s "https://") = true →
        apply_domain domain s = s)
    ∧ (∀ domain s : String, domain ≠ "" → s ≠ "" →
        (strStartsWith s "http://" || strStartsWith s "https://") = false →
          apply_domain domain s
            = rstripSlash domain ++ (if strStartsWith s "/" then s else "/" ++ s))
    ∧ (∀ (product : Record) (bm : List (Int × String)) (domain s : String),
        rawUrlOf product = .str s →
          buildCell bm domain product "custom_url" = some (apply_domain domain s))
    ∧ buildCell [] "https://shop.example.com/"
        [("custom_url", .dict [("url", .str "/widgets/1")])] "custom_url"
        = some "https://shop.example.com/widgets/1"
    ∧ (∀ domain : String,
        buildCell [] domain [("custom_url", .dict [("url", .str "https://cdn.example.com/x")])]
          "custom_url" = some "https://cdn.example.com/x") := by
  have h1 : ∀ domain s : String,
      (strStartsWith s "http://" || strStartsWith s "https://") = true →
        apply_domain domain s = s := by
    intro domain s hs
    unfold apply_domain
    by_cases hd : domain = ""
    · rw [if_pos hd]
    · rw [if_neg hd]
      by_cases he : s = ""
      · subst he; exact absurd hs (by decide)
      · rw [if_neg he, if_pos hs]
  refine ⟨h1, ?_, buildCell_custom_url_str, ?_, ?_⟩
  · intro domain s hd he hs
    unfold apply_domain
    rw [if_neg hd, if_neg he, if_neg (by simp [hs])]
  · rw [buildCell_custom_url_str [("custom_url", .dict [("url", .str "/widgets/1")])] []
      "https://shop.example.com/" "/widgets/1" rfl]
    rfl
  · intro domain
    rw [buildCell_custom_url_str [("custom_url", .dict [("url", .str "https://cdn.example.com/x")])]
      [] domain "https://cdn.example.com/x" rfl, h1 domain _ (by decide)]

/-- C7 witness: concrete instantiation of the extraction conjunct on a
product whose custom-url attribute is the plain string `abc`. -/
theorem custom_url_domain_prefixing_witness :
    buildCell [] "https://host" [("custom_url", Value.str "abc")] "custom_url"
      = some (apply_domain "https://host" "abc") :=
  custom_url_domain_prefixing.2.2.1 [("custom_url", Value.str "abc")] [] "https://host" "abc" rfl

/-- C7 counterexample: with the non-empty domain `https://shop.example.com/`
and an empty extracted value (custom-url attribute absent), the claim as
stated predicts the cell `https://shop.example.com/` (stripped domain plus
a bare leading slash), but the code produces the empty cell. -/
theorem custom_url_domain_prefixing_cx :
    rawUrlOf ([] : Record) = Value.str ""
    ∧ rstripSlash "https://shop.example.com/"
        ++ (if strStartsWith "" "/" then "" else "/" ++ "") = "https://shop.example.com/"
    ∧ buildCell [] "https://shop.example.com/" [] "custom_url" = some ""
    ∧ ("" : String) ≠ "https://shop.example.com/" := by
  refine ⟨rfl, by decide, ?_, by decide⟩
  rw [buildCell_custom_url_str [] [] "https://shop.example.com/" "" rfl]
  rfl

/-- C9: for every product and non-empty domain, if the extracted custom-url
value is the empty string then the `custom_url` cell is the empty string,
never the bare domain. -/
theorem empty_custom_url_not_bare_domain (product : Record) (bm : List (Int × String))
    (domain : String) (hd : domain ≠ "") (hraw : rawUrlOf product = Value.str "") :
    buildCell bm domain product "custom_url" = some ""
    ∧ buildCell bm domain product "custom_url" ≠ some domain := by
  have hc : buildCell bm domain product "custom_url" = some "" := by
    rw [buildCell_custom_url_str product bm domain "" hraw]
    unfold apply_domain
    rw [if_neg hd, if_pos rfl]
  refine ⟨hc, ?_⟩
  rw [hc]
  intro hcon
  exact hd (Option.some.inj hcon).symm

/-- C9 witness: a product without the custom-url attribute under a non-empty
domain. -/
theorem empty_custom_url_not_bare_domain_witness :
    buildCell [] "https://x" [] "custom_url" = some ""
    ∧ buildCell [] "https://x" [] "custom_url" ≠ some "https://x" :=
  empty_custom_url_not_bare_domain [] [] "https://x" (by decide) rfl

/-- C8: whenever `build_csv_rows` succeeds, its output starts with the
header row, which has exactly one cell per requested field in the field
list's order (duplicates included), each cell being the registered friendly
label when one exists and the raw field key otherwise. -/
theorem csv_header_row (products : List (Option Record)) (fields : List String)
    (bm : List (Int × String)) (domain : String) (out : String)
    (h : build_csv_rows products fields bm domain = some out) :
    strStartsWith out (csvRowString (fields.map labelOf)) = true
    ∧ (fields.map labelOf).length = fields.length
    ∧ (∀ f l, getKeyS? FIELD_OPTIONS f = some l → labelOf f = l)
    ∧ (∀ f, getKeyS? FIELD_OPTIONS f = none → labelOf f = f) := by
  refine ⟨?_, List.length_map _ _, ?_, ?_⟩
  · unfold build_csv_rows at h
    cases hm : products.mapM (fun product =>
        (fields.mapM (fun field => buildCell bm domain (product.getD []) field)).map
          csvRowString) with
    | none => rw [hm] at h; exact absurd h (by simp)
    | some rows =>
      rw [hm] at h
      have hout : out = csvRowString (fields.map labelOf) ++ String.join rows :=
        (Option.some.inj h).symm
      subst hout
      simp [strStartsWith, List.isPrefixOf_iff_prefix]
  · intro f l hf; simp [labelOf, hf]
  · intro f hf; simp [labelOf, hf]

/-- C8 witness: two requested fields, one registered and one unknown. -/
theorem csv_header_row_witness :
    strStartsWith "Name,zzz\r\n" (csvRowString (["name", "zzz"].map labelOf)) = true
    ∧ (["name", "zzz"].map labelOf).length = ["name", "zzz"].length :=
  ⟨(csv_header_row [] ["name", "zzz"] [] "" "Name,zzz\r\n" rfl).1,
   (csv_header_row [] ["name", "zzz"] [] "" "Name,zzz\r\n" rfl).2.1⟩

theorem getKeyS?_dictSetS_self (c : List (String × String)) (k v : String) :
    getKeyS? (dictSetS c k v) k = some v := by
  induction c with
  | nil => simp [dictSetS, getKeyS?]
  | cons kv rest ih =>
    by_cases h : kv.1 = k
    · simp [dictSetS, getKeyS?, h]
    · simp [dictSetS, getKeyS?, h, ih]

theorem getKeyS?_dictSetS_other (c : List (String × String)) (k k2 v : String)
    (h : k2 ≠ k) : getKeyS? (dictSetS c k v) k2 = getKeyS? c k2 := by
  induction c with
  | nil => simp [dictSetS, getKeyS?, Ne.symm h]
  | cons kv rest ih =>
    by_cases hk : kv.1 = k
    · simp [dictSetS, getKeyS?, hk, Ne.symm h]
    · by_cases hk2 : kv.1 = k2
      · simp [dictSetS, getKeyS?, hk, hk2, h]
      · simp [dictSetS, getKeyS?, hk, hk2, ih]

theorem getKeyS?_eq_none_of_not_mem (c : List (String × String)) (k : String)
    (h : k ∉ c.map Prod.fst) : getKeyS? c k = none := by
  induction c with
  | nil => rfl
  | cons kv rest ih =>
    simp only [List.map_cons, List.mem_cons] at h
    push_neg at h
    simp [getKeyS?, Ne.symm h.1, ih h.2]

theorem getKeyS?_some_mem (c : List (String × String)) (k v : String)
    (h : getKeyS? c k = some v) : (k, v) ∈ c := by
  induction c with
  | nil => simp [getKeyS?] at h
  | cons kv rest ih =>
    by_cases hk : kv.1 = k
    · simp only [getKeyS?, if_pos hk] at h
      obtain ⟨k1, v1⟩ := kv
      simp only at hk h
      subst hk
      rw [← Option.some.inj h]
      exact List.mem_cons_self _ _
    · simp only [getKeyS?, if_neg hk] at h
      exact List.mem_cons_of_mem _ (ih h)

theorem config_fold_lookup (ovs : List (String × String)) :
    ∀ (c : List (String × String)) (k : String), (ovs.map Prod.fst).Nodup →
    getKeyS? (ovs.foldl (fun config kv => if kv.2 ≠ "" then dictSetS config kv.1 kv.2 else config) c) k
      = match getKeyS? ovs k with
        | some v => if v ≠ "" then some v else getKeyS? c k
        | none => getKeyS? c k := by
  induction ovs with
  | nil => intro c k _; rfl
  | cons kv rest ih =>
    intro c k hnd
    simp only [List.map_cons, List.nodup_cons] at hnd
    rw [List.foldl_cons, ih _ k hnd.2]
    by_cases hk : kv.1 = k
    · have hrest : getKeyS? rest k = none :=
        getKeyS?_eq_none_of_not_mem rest k (hk ▸ hnd.1)
      rw [hrest]
      simp only [getKeyS?, if_pos hk]
      by_cases hv : kv.2 = ""
      · simp [hv]
      · simp [hv, hk, getKeyS?_dictSetS_self]
    · simp only [getKeyS?, if_neg hk]
      by_cases hv : kv.2 = ""
      · simp [hv]
      · cases hrk : getKeyS? rest k with
        | none => simp [hv, getKeyS?_dictSetS_other c kv.1 k kv.2 (Ne.symm hk)]
        | some w =>
          by_cases hw : w = ""
          · simp [hv, hw, getKeyS?_dictSetS_other c kv.1 k kv.2 (Ne.symm hk)]
          · simp [hv, hw]

theorem getKeyS?_config (env : String → String) (overrides : List (String × String))
    (hnd : (overrides.map Prod.fst).Nodup) (k d : String)
    (hbase : getKeyS? [
      ("store_hash", env "BIGCOMMERCE_STORE_HASH"),
      ("client_id", env "BIGCOMMERCE_CLIENT_ID"),
      ("access_token", env "BIGCOMMERCE_ACCESS_TOKEN")] k = some d) :
    getKeyS? (get_bigcommerce_config env overrides) k = some (effVal overrides k d) := by
  unfold get_bigcommerce_config
  rw [config_fold_lookup overrides _ k hnd]
  cases hov : getKeyS? overrides k with
  | none => simp [effVal, hov, hbase]
  | some v =>
    by_cases hv : v = ""
    · simp [effVal, hov, hv, hbase]
    · simp [effVal, hov, hv]

/-- C5: the effective configuration maps each of the three required keys to
the override's value when the override provides a non-empty value for the
key and to the environment default otherwise; and whenever any key of the
effective configuration is empty, `fetch_products` fails with a
configuration error listing exactly the empty-valued keys — among them the
empty key — no matter what the listing endpoint would serve, i.e. before
any page request is issued. -/
theorem config_merge_and_validation (env : String → String)
    (overrides : List (String × String)) (hnd : (overrides.map Prod.fst).Nodup) :
    getKeyS? (get_bigcommerce_config env overrides) "store_hash"
      = some (effVal overrides "store_hash" (env "BIGCOMMERCE_STORE_HASH"))
    ∧ getKeyS? (get_bigcommerce_config env overrides) "client_id"
      = some (effVal overrides "client_id" (env "BIGCOMMERCE_CLIENT_ID"))
    ∧ getKeyS? (get_bigcommerce_config env overrides) "access_token"
      = some (effVal overrides "access_token" (env "BIGCOMMERCE_ACCESS_TOKEN"))
    ∧ (∀ k, getKeyS? (get_bigcommerce_config env overrides) k = some "" →
        ∀ (pages : Nat → PageResponse) (maxItems pageSize : Nat),
          fetch_products env overrides pages maxItems pageSize
            = .error (.configError
                (((get_bigcommerce_config env overrides).filter
                    (fun kv => kv.2 = "")).map Prod.fst))
          ∧ k ∈ ((get_bigcommerce_config env overrides).filter
                (fun kv => kv.2 = "")).map Prod.fst) := by
  refine ⟨getKeyS?_config env overrides hnd _ _ rfl,
    getKeyS?_config env overrides hnd _ _ rfl,
    getKeyS?_config env overrides hnd _ _ rfl, ?_⟩
  intro k hk pages maxItems pageSize
  have hmem : (k, "") ∈ get_bigcommerce_config env overrides :=
    getKeyS?_some_mem _ _ _ hk
  have hmiss : k ∈ ((get_bigcommerce_config env overrides).filter
      (fun kv => kv.2 = "")).map Prod.fst :=
    List.mem_map.mpr ⟨(k, ""), List.mem_filter.mpr ⟨hmem, by simp⟩, rfl⟩
  have hne : ((get_bigcommerce_config env overrides).filter
      (fun kv => kv.2 = "")).map Prod.fst ≠ [] :=
    List.ne_nil_of_mem hmiss
  refine ⟨?_, hmiss⟩
  simp only [fetch_products]
  rw [if_pos hne]

/-- C5 witness: store hash from the environment, client id overridden,
access token missing; the fetch is rejected naming `access_token`. -/
theorem config_merge_and_validation_witness :
    fetch_products (fun k => if k = "BIGCOMMERCE_STORE_HASH" then "h" else "")
        [("client_id", "c")] (fun _ => ⟨200, "", []⟩) 5 2
      = .error (.configError
          (((get_bigcommerce_config
                (fun k => if k = "BIGCOMMERCE_STORE_HASH" then "h" else "")
                [("client_id", "c")]).filter (fun kv => kv.2 = "")).map Prod.fst))
    ∧ "access_token" ∈ ((get_bigcommerce_config
          (fun k => if k = "BIGCOMMERCE_STORE_HASH" then "h" else "")
          [("client_id", "c")]).filter (fun kv => kv.2 = "")).map Prod.fst :=
  (config_merge_and_validation (fun k => if k = "BIGCOMMERCE_STORE_HASH" then "h" else "")
      [("client_id", "c")] (by simp)).2.2.2 "access_token" rfl (fun _ => ⟨200, "", []⟩) 5 2

theorem pagesFlat_succ (pages : Nat → PageResponse) (page : Nat) (h : 1 ≤ page) :
    pagesFlat pages page = pagesFlat pages (page - 1) ++ (pages page).data := by
  obtain ⟨k, rfl⟩ : ∃ k, page = k + 1 := ⟨page - 1, by omega⟩
  simp [pagesFlat]

theorem fetchLoop_run (pages : Nat → PageResponse) (pageSize maxItems : Nat)
    (hstat : ∀ i, (pages i).statusCode = 200) :
    ∀ (m page : Nat), 1 ≤ page → maxItems - (pagesFlat pages (page - 1)).length = m →
    ∃ n, fetchLoop pages pageSize maxItems (pagesFlat pages (page - 1)) page
          = .ok (pagesFlat pages n, n)
      ∧ page - 1 ≤ n
      ∧ (∀ i, page ≤ i → i < n → (pages i).data ≠ [] ∧ pageSize ≤ (pages i).data.length)
      ∧ (∀ i, page - 1 ≤ i → i < n → (pagesFlat pages i).length < maxItems)
      ∧ (page ≤ n → stopCond pages pageSize maxItems n)
      ∧ (n < page → n = page - 1 ∧ maxItems ≤ (pagesFlat pages n).length) := by
  intro m
  induction m using Nat.strong_induction_on with
  | _ m ih =>
    intro page hpage hm
    by_cases hlt : (pagesFlat pages (page - 1)).length < maxItems
    · have hs : ¬((pages page).statusCode ≠ 200) := by simp [hstat page]
      by_cases hd : (pages page).data.isEmpty
      · have hdata : (pages page).data = [] := by simpa using hd
        refine ⟨page, ?_, by omega, ?_, ?_, ?_, ?_⟩
        · rw [fetchLoop, dif_pos hlt, if_neg hs, dif_pos hd,
            pagesFlat_succ pages page hpage, hdata, List.append_nil]
        · intro i h1 h2; omega
        · intro i h1 h2
          have : i = page - 1 := by omega
          subst this; exact hlt
        · intro _; exact Or.inl hdata
        · intro hcon; exact absurd hcon (lt_irrefl _)
      · by_cases hshort : (pages page).data.length < pageSize
        · refine ⟨page, ?_, by omega, ?_, ?_, ?_, ?_⟩
          · rw [fetchLoop, dif_pos hlt, if_neg hs, dif_neg hd, if_pos hshort,
              ← pagesFlat_succ pages page hpage]
          · intro i h1 h2; omega
          · intro i h1 h2
            have : i = page - 1 := by omega
            subst this; exact hlt
          · intro _; exact Or.inr (Or.inl hshort)
          · intro hcon; exact absurd hcon (lt_irrefl _)
        · have hne : (pages page).data ≠ [] := by
            intro hnil; exact hd (by simp [hnil])
          have hlen : 0 < (pages page).data.length := List.length_pos.mpr hne
          have hmeas : maxItems - (pagesFlat pages page).length < m := by
            rw [pagesFlat_succ pages page hpage, List.length_append]
            omega
          obtain ⟨n, heq, hge, hdata2, hguard, hstop, hlow⟩ :=
            ih _ hmeas (page + 1) (by omega) rfl
          have heq' : fetchLoop pages pageSize maxItems (pagesFlat pages page) (page + 1)
              = .ok (pagesFlat pages n, n) := by simpa using heq
          have hge' : page ≤ n := by omega
          refine ⟨n, ?_, by omega, ?_, ?_, ?_, ?_⟩
          · rw [fetchLoop, dif_pos hlt, if_neg hs, dif_neg hd, if_neg hshort,
              ← pagesFlat_succ pages page hpage]
            exact heq'
          · intro i h1 h2
            by_cases hip : i = page
            · subst hip; exact ⟨hne, le_of_not_lt hshort⟩
            · exact hdata2 i (by omega) h2
          · intro i h1 h2
            by_cases hip : i = page - 1
            · subst hip; exact hlt
            · exact hguard i (by omega) h2
          · intro _
            by_cases hnp : page + 1 ≤ n
            · exact hstop hnp
            · obtain ⟨_, hmax⟩ := hlow (by omega)
              exact Or.inr (Or.inr hmax)
          · intro hn; exact absurd hn (by omega)
    · refine ⟨page - 1, ?_, le_refl _, ?_, ?_, ?_, ?_⟩
      · rw [fetchLoop, dif_neg hlt]
      · intro i h1 h2; omega
      · intro i h1 h2; omega
      · intro hcon; exact absurd hcon (by omega)
      · intro _; exact ⟨rfl, le_of_not_lt hlt⟩

/-- C1: with a valid configuration and an endpoint serving only successful
pages, the pagination loop of `fetch_products` stops requesting pages
exactly at the first page where one of the three stop conditions holds
(empty page, page shorter than `pageSize`, or running total at/over
`maxItems`): writing `n` for the last page requested, no page before `n`
satisfies any stop condition, page `n` satisfies one, no page is requested
at all exactly when `maxItems = 0`, the result is the first `maxItems`
records of the concatenation of the served pages, and the returned list
never has more than `maxItems` elements. -/
theorem fetch_pagination_stop (env : String → String)
    (overrides : List (String × String)) (pages : Nat → PageResponse)
    (maxItems pageSize : Nat) (hps : 0 < pageSize)
    (hstat : ∀ i, (pages i).statusCode = 200)
    (hconf : ∀ kv ∈ get_bigcommerce_config env overrides, kv.2 ≠ "") :
    (∀ res, fetch_products env overrides pages maxItems pageSize = .ok res →
      res.length ≤ maxItems)
    ∧ (∀ res n, fetchLoop pages pageSize maxItems [] 1 = .ok (res, n) →
        res = pagesFlat pages n
        ∧ fetch_products env overrides pages maxItems pageSize
            = .ok ((pagesFlat pages n).take maxItems)
        ∧ (∀ i, 1 ≤ i → i < n → ¬ stopCond pages pageSize maxItems i)
        ∧ (1 ≤ n → stopCond pages pageSize maxItems n)
        ∧ (n = 0 → maxItems = 0))
    ∧ (fetchLoop pages pageSize maxItems [] 1).toOption.isSome = true := by
  obtain ⟨n, heq, hge, hdata, hguard, hstop, hlow⟩ :=
    fetchLoop_run pages pageSize maxItems hstat
      (maxItems - (pagesFlat pages 0).length) 1 (le_refl 1) rfl
  have heq0 : fetchLoop pages pageSize maxItems [] 1 = .ok (pagesFlat pages n, n) := heq
  have hmiss : ((get_bigcommerce_config env overrides).filter
      (fun kv => kv.2 = "")).map Prod.fst = [] := by
    have hf : (get_bigcommerce_config env overrides).filter (fun kv => kv.2 = "") = [] :=
      List.filter_eq_nil_iff.mpr (by intro kv hkv; simpa using hconf kv hkv)
    rw [hf]; rfl
  have hfetch : fetch_products env overrides pages maxItems pageSize
      = .ok ((pagesFlat pages n).take maxItems) := by
    simp only [fetch_products]
    rw [if_neg (by rw [hmiss]; simp), heq0]
  refine ⟨?_, ?_, ?_⟩
  · intro res hres
    rw [hfetch] at hres
    rw [(Except.ok.inj hres).symm, List.length_take]
    exact Nat.min_le_left _ _
  · intro res n' hres'
    obtain ⟨h1, h2⟩ := Prod.mk.injEq .. ▸ Except.ok.inj (heq0.symm.trans hres')
    subst h1; subst h2
    refine ⟨rfl, hfetch, ?_, hstop, ?_⟩
    · intro i hi1 hi2 hcon
      rcases hcon with h | h | h
      · exact (hdata i hi1 hi2).1 h
      · exact absurd (hdata i hi1 hi2).2 (by omega)
      · exact absurd (hguard i (by omega) hi2) (by omega)
    · intro h0
      have := (hlow (by omega)).2
      simp only [h0] at this
      simpa [pagesFlat] using this
  · rw [heq0]; rfl

/-- C1 witness: page size 2 and cap 5 against an endpoint whose first page
has two records and whose second page is empty. -/
theorem fetch_pagination_stop_witness :
    (fetchLoop (fun i => ⟨200, "", if i = 1 then [[], []] else []⟩) 2 5 [] 1).toOption.isSome
      = true :=
  (fetch_pagination_stop (fun _ => "x") []
    (fun i => ⟨200, "", if i = 1 then [[], []] else []⟩) 5 2 (by decide)
    (fun _ => rfl) (by decide)).2.2

theorem fetchLoop_reach_error (pages : Nat → PageResponse) (pageSize maxItems f : Nat)
    (hm : 0 < maxItems) (hf : 1 ≤ f)
    (hok : ∀ i, 1 ≤ i → i < f →
      (pages i).statusCode = 200 ∧ ¬ stopCond pages pageSize maxItems i)
    (hbad : (pages f).statusCode ≠ 200) :
    fetchLoop pages pageSize maxItems [] 1
      = .error ((pages f).statusCode, (pages f).text) := by
  suffices h : ∀ (k page : Nat), 1 ≤ page → page ≤ f → f - page = k →
      fetchLoop pages pageSize maxItems (pagesFlat pages (page - 1)) page
        = .error ((pages f).statusCode, (pages f).text) by
    exact h (f - 1) 1 (le_refl 1) hf rfl
  intro k
  induction k with
  | zero =>
    intro page hpage hpf hk
    have hpf' : page = f := by omega
    subst hpf'
    have hguard : (pagesFlat pages (page - 1)).length < maxItems := by
      by_cases h1 : page = 1
      · subst h1; simpa [pagesFlat] using hm
      · have := (hok (page - 1) (by omega) (by omega)).2
        unfold stopCond at this
        push_neg at this
        exact this.2.2
    rw [fetchLoop, dif_pos hguard, if_pos hbad]
  | succ k ih =>
    intro page hpage hpf hk
    have hplt : page < f := by omega
    obtain ⟨hst, hnostop⟩ := hok page hpage hplt
    unfold stopCond at hnostop
    push_neg at hnostop
    obtain ⟨hne, hlong, hguard'⟩ := hnostop
    have hguard : (pagesFlat pages (page - 1)).length < maxItems := by
      by_cases h1 : page = 1
      · subst h1; simpa [pagesFlat] using hm
      · have := (hok (page - 1) (by omega) (by omega)).2
        unfold stopCond at this
        push_neg at this
        exact this.2.2
    have hs : ¬((pages page).statusCode ≠ 200) := by simp [hst]
    have hd : ¬((pages page).data.isEmpty = true) := by
      simpa using hne
    rw [fetchLoop, dif_pos hguard, if_neg hs, dif_neg hd,
      if_neg (by omega : ¬ (pages page).data.length < pageSize),
      ← pagesFlat_succ pages page hpage]
    have : pagesFlat pages page = pagesFlat pages ((page + 1) - 1) := by
      simp
    rw [this]
    exact ih (page + 1) (by omega) (by omega) (by omega)

theorem brandLoop_reach_error (pages : Nat → PageResponse) (g : Nat) (hg : 1 ≤ g)
    (hok : ∀ i, 1 ≤ i → i < g →
      (pages i).statusCode = 200 ∧ (pages i).data ≠ [] ∧ 250 ≤ (pages i).data.length)
    (hbad : (pages g).statusCode ≠ 200) :
    ∀ (fuel page : Nat) (bm : List (Value × Value)), 1 ≤ page → page ≤ g →
      g - page < fuel →
      brandLoop pages fuel page bm
        = some (.error ((pages g).statusCode, (pages g).text)) := by
  intro fuel
  induction fuel with
  | zero => intro page bm _ _ hcon; exact absurd hcon (by omega)
  | succ fuel ih =>
    intro page bm hpage hpg hfuel
    by_cases hpf : page = g
    · subst hpf
      rw [brandLoop, if_pos hbad]
    · obtain ⟨hst, hne, hlong⟩ := hok page hpage (by omega)
      have hs : ¬((pages page).statusCode ≠ 200) := by simp [hst]
      have hd : ¬((pages page).data.isEmpty = true) := by simpa using hne
      rw [brandLoop, if_neg hs, if_neg hd,
        if_neg (by omega : ¬ (pages page).data.length < 250)]
      exact ih (page + 1) _ (by omega) (by omega) (by omega)

/-- C6: with a valid configuration, if the pages before `f` succeed without
triggering a stop condition and the request for page `f` returns a
non-success status, `fetch_products` fails the whole operation with an
upstream error carrying exactly that status code and raw response body and
returns no record list; likewise `fetch_brand_map` for its own page
sequence failing first at page `g` (each page is requested once, so the
failing request is not retried). -/
theorem upstream_error_aborts (env : String → String)
    (overrides : List (String × String)) (pagesP pagesB : Nat → PageResponse)
    (maxItems pageSize f g fuel : Nat)
    (hconf : ∀ kv ∈ get_bigcommerce_config env overrides, kv.2 ≠ "")
    (hm : 0 < maxItems) (hf : 1 ≤ f)
    (hokP : ∀ i, 1 ≤ i → i < f →
      (pagesP i).statusCode = 200 ∧ ¬ stopCond pagesP pageSize maxItems i)
    (hbadP : (pagesP f).statusCode ≠ 200)
    (hg : 1 ≤ g)
    (hokB : ∀ i, 1 ≤ i → i < g →
      (pagesB i).statusCode = 200 ∧ (pagesB i).data ≠ [] ∧ 250 ≤ (pagesB i).data.length)
    (hbadB : (pagesB g).statusCode ≠ 200) (hfuel : g ≤ fuel) :
    fetch_products env overrides pagesP maxItems pageSize
      = .error (.upstream (pagesP f).statusCode (pagesP f).text)
    ∧ fetch_brand_map env overrides pagesB fuel
      = some (.error (.upstream (pagesB g).statusCode (pagesB g).text)) := by
  have hmiss : ((get_bigcommerce_config env overrides).filter
      (fun kv => kv.2 = "")).map Prod.fst = [] := by
    have hfn : (get_bigcommerce_config env overrides).filter (fun kv => kv.2 = "") = [] :=
      List.filter_eq_nil_iff.mpr (by intro kv hkv; simpa using hconf kv hkv)
    rw [hfn]; rfl
  constructor
  · simp only [fetch_products]
    rw [if_neg (by rw [hmiss]; simp),
      fetchLoop_reach_error pagesP pageSize maxItems f hm hf hokP hbadP]
  · simp only [fetch_brand_map]
    rw [if_neg (by rw [hmiss]; simp),
      brandLoop_reach_error pagesB g hg hokB hbadB fuel 1 [] (le_refl 1) hg (by omega)]
    rfl

/-- C6 witness: both endpoints fail immediately at page 1 with a 500. -/
theorem upstream_error_aborts_witness :
    fetch_products (fun _ => "x") [] (fun _ => ⟨500, "boom", []⟩) 1 250
      = .error (.upstream 500 "boom")
    ∧ fetch_brand_map (fun _ => "x") [] (fun _ => ⟨500, "boom", []⟩) 1
      = some (.error (.upstream 500 "boom")) :=
  upstream_error_aborts (fun _ => "x") [] (fun _ => ⟨500, "boom", []⟩)
    (fun _ => ⟨500, "boom", []⟩) 1 250 1 1 1 (by decide) (by decide) (le_refl 1)
    (fun i h1 h2 => absurd h2 (by omega)) (by decide) (le_refl 1)
    (fun i h1 h2 => absurd h2 (by omega)) (by decide) (le_refl 1)
